import Mathlib

/-!
Shallow embedding of `controllers/configs.go` from
`cluster-api-control-plane-provider-talos`.

The file embeds the three functions of that source file —
`kubeconfigForCluster`, `talosconfigForMachines` and
`talosconfigFromWorkloadCluster` — as pure Lean functions over an
explicit environment `Env` that stands for the external collaborators
(the management-cluster client, `clientcmd`, `kubernetes.NewForConfig`,
the workload-cluster node API, and `talosconfig.FromString`).  Each
embedded function additionally returns the list of external operations
it performed, in order, so that temporal properties (what was called
before a failure, whether the client was ever closed) are statable.
-/

namespace ControlPlane

/-- `metav1.OwnerReference`, restricted to the two fields the source reads. -/
structure OwnerReference where
  kind : String
  name : String
deriving DecidableEq

/-- `cabptv1.TalosConfig`, restricted to the fields the source reads:
the owner references and `Status.TalosConfig`. -/
structure TalosConfig where
  ownerReferences : List OwnerReference
  statusTalosConfig : String
deriving DecidableEq

/-- Address types; `clusterv1.MachineAddressType` and `corev1.NodeAddressType`
share the value set relevant here (ExternalIP / InternalIP / Hostname / DNS). -/
inductive AddressType where
  | hostname
  | externalIP
  | internalIP
  | externalDNS
  | internalDNS
deriving DecidableEq

/-- A typed address record, as on `Machine.Status.Addresses` and
`Node.Status.Addresses`. -/
structure AddressRecord where
  type : AddressType
  address : String
deriving DecidableEq

/-- `corev1.ObjectReference` restricted to the `Name` field the source reads
from `machine.Status.NodeRef`. -/
structure NodeRef where
  name : String
deriving DecidableEq

/-- `clusterv1.Machine`, restricted to the fields the source reads.
`ns` embeds `Machine.Namespace` (`namespace` is a Lean keyword). -/
structure Machine where
  name : String
  ns : String
  statusAddresses : List AddressRecord
  statusNodeRef : Option NodeRef
deriving DecidableEq

/-- `corev1.Node`, restricted to `Name` and `Status.Addresses`. -/
structure Node where
  name : String
  statusAddresses : List AddressRecord
deriving DecidableEq

/-- `corev1.Secret`, restricted to its `Data` map (bytes modelled as `String`). -/
structure Secret where
  data : List (String × String)
deriving DecidableEq

/-- `client.ObjectKey`: namespace + name. -/
structure ObjectKey where
  ns : String
  name : String
deriving DecidableEq

/-- `net.Dialer` restricted to the two fields the source sets (seconds). -/
structure Dialer where
  timeout : Nat
  keepAlive : Nat
deriving DecidableEq

/-- `newDialer` from the source: a connection-rotation dialer over a
`net.Dialer` with 30-second timeout and keep-alive. -/
def newDialer : Dialer :=
  { timeout := 30, keepAlive := 30 }

/-- `rest.Config`, restricted to what the source manipulates: the `Dial`
hook it installs. -/
structure RESTConfig where
  dial : Option Dialer
deriving DecidableEq

/-- Opaque `kubernetes.Clientset` token handed back by the environment. -/
structure Clientset where
  id : Nat
deriving DecidableEq

/-- The source's `kubernetesClient` wrapper: a clientset plus the dialer
whose connections `Close` releases. -/
structure kubernetesClient where
  clientset : Clientset
  dialer : Dialer
deriving DecidableEq

/-- `talosconfig.Config` is opaque to this file; it is whatever
`talosconfig.FromString` produced from the stored string. -/
abbrev TalosCfg := String

/-- The value returned by `talosclient.New`: the endpoint list and config
passed to it (`WithEndpoints(addrList...)`, `WithConfig(t)`); `config` is
an `Option` because `t` is a pointer in the source. -/
structure TalosClient where
  endpoints : List String
  config : Option TalosCfg
deriving DecidableEq

/-- Errors produced by the source file or propagated from the environment. -/
inductive Err where
  | atLeastOneMachine
  | noAddresses (name : String)
  | noNodeRef (machineName : String)
  | configNotFound (machineName : String)
  | external (msg : String)
deriving DecidableEq

/-- External operations performed by the embedded functions, in order. -/
inductive Event where
  | getSecret (ns name : String)
  | parseKubeconfig (bytes : String)
  | newForConfig (dial : Option Dialer)
  | listConfigs (ns : String)
  | getNode (name : String)
  | closeClient
  | parseTalosConfig (s : String)
deriving DecidableEq

/-- The environment: behaviour of every external call the source makes.
External failures are opaque error values (modelled as their message);
the embedding propagates them unchanged, wrapped as `Err.external`, so
they stay distinguishable from the errors this file itself constructs. -/
structure Env where
  getSecret : String → String → Except String Secret
  restConfigFromKubeConfig : String → Except String RESTConfig
  newForConfig : RESTConfig → Except String Clientset
  getNode : Clientset → String → Except String Node
  listTalosConfigs : String → Except String (List TalosConfig)
  talosconfigFromString : String → Except String TalosCfg

/-- `kubernetesClient.Close` from the source: closes all of the dialer's
connections.  It is defined here to make the release operation statable;
whether the resolver ever invokes it is a property of the trace. -/
def kubernetesClient.Close (_k : kubernetesClient) : List Event × Except Err Unit :=
  ([Event.closeClient], Except.ok ())

/-- `kubeconfigForCluster`: fetch the `<name>-kubeconfig` secret, parse its
`data["value"]` bytes into a REST config, install the rotation dialer, and
build the clientset.  A missing `"value"` key yields the Go zero value
(empty bytes), as Go map indexing does. -/
def kubeconfigForCluster (env : Env) (cluster : ObjectKey) :
    List Event × Except Err kubernetesClient :=
  let secretName := cluster.name ++ "-kubeconfig"
  match env.getSecret cluster.ns secretName with
  | Except.error e =>
      ([Event.getSecret cluster.ns secretName], Except.error (Err.external e))
  | Except.ok kubeconfigSecret =>
    let bytes := (kubeconfigSecret.data.lookup "value").getD ""
    match env.restConfigFromKubeConfig bytes with
    | Except.error e =>
        ([Event.getSecret cluster.ns secretName, Event.parseKubeconfig bytes],
         Except.error (Err.external e))
    | Except.ok config =>
      let dialer := newDialer
      let config := { config with dial := some dialer }
      match env.newForConfig config with
      | Except.error e =>
          ([Event.getSecret cluster.ns secretName, Event.parseKubeconfig bytes,
            Event.newForConfig config.dial],
           Except.error (Err.external e))
      | Except.ok clientset =>
          ([Event.getSecret cluster.ns secretName, Event.parseKubeconfig bytes,
            Event.newForConfig config.dial],
           Except.ok { clientset := clientset, dialer := dialer })

/-- Whether an owner reference designates the machine: the source's
`ref.Kind == "Machine" && ref.Name == machine.Name` test. -/
def refMatches (machineName : String) (ref : OwnerReference) : Bool :=
  ref.kind == "Machine" && ref.name == machineName

/-- Whether a TalosConfig record is owned by the machine (the inner
reference loop of both scan sites). -/
def ownedByMachine (machineName : String) (cfg : TalosConfig) : Bool :=
  cfg.ownerReferences.any (refMatches machineName)

/-- The credential scan of `talosconfigForMachines` (lines 117–125): the
labelled `break outer` leaves both loops at the first owned record, so the
scan returns the first match. -/
def findFirstOwned (cfgs : List TalosConfig) (machineName : String) :
    Option TalosConfig :=
  cfgs.find? (ownedByMachine machineName)

/-- The credential scan of `talosconfigFromWorkloadCluster` (lines 189–196):
the plain `break` leaves only the inner reference loop, so the outer loop
keeps scanning and each later owned record overwrites `found`; the scan
returns the last match.  (The loop variable is modelled per iteration, so
`found` holds the value of the record that set it.) -/
def findLastOwned (cfgs : List TalosConfig) (machineName : String) :
    Option TalosConfig :=
  cfgs.foldl
    (fun found cfg => if ownedByMachine machineName cfg then some cfg else found)
    none

/-- The address-collection loop both resolvers run over a record list:
append every ExternalIP/InternalIP address to the running list, in record
order. -/
def collectAddrs (addrList : List String) (addrs : List AddressRecord) :
    List String :=
  addrs.foldl
    (fun acc addr =>
      if addr.type = AddressType.externalIP ∨ addr.type = AddressType.internalIP
      then acc ++ [addr.address] else acc)
    addrList

/-- A machine's ExternalIP/InternalIP addresses, in record order. -/
def relevantAddrs (m : Machine) : List String :=
  collectAddrs [] m.statusAddresses

/-- A node's ExternalIP/InternalIP addresses, in record order. -/
def relevantNodeAddrs (n : Node) : List String :=
  collectAddrs [] n.statusAddresses

/-- The bootstrap provider's config spec type held in
`tcp.Spec.ControlPlaneConfig.InitConfig`.  Modelled from the spec: the type
itself lives in the bootstrap provider, outside this repository; the spec
describes only the structural zero-value test applied to it, so it is
modelled as a record whose `isZero` holds exactly when every field is the
Go zero value. -/
structure InitConfig where
  generateType : String := ""
  data : String := ""
deriving DecidableEq

/-- `reflect.ValueOf(initConfig).IsZero()`: every field is the zero value. -/
def InitConfig.isZero (c : InitConfig) : Bool :=
  c.generateType == "" && c.data == ""

/-- `controlplanev1.ControlPlaneConfig`, restricted to the `InitConfig`
field the source inspects. -/
structure ControlPlaneConfig where
  initConfig : InitConfig
deriving DecidableEq

/-- `controlplanev1.TalosControlPlaneSpec`, restricted to
`ControlPlaneConfig`. -/
structure TalosControlPlaneSpec where
  controlPlaneConfig : ControlPlaneConfig
deriving DecidableEq

/-- `controlplanev1.TalosControlPlane`, restricted to the namespace, the
labels, and the spec the source reads. -/
structure TalosControlPlane where
  ns : String
  labels : List (String × String)
  spec : TalosControlPlaneSpec
deriving DecidableEq

/-- `tcp.GetLabels()["cluster.x-k8s.io/cluster-name"]`; a missing key
yields the Go zero value. -/
def clusterNameLabel (tcp : TalosControlPlane) : String :=
  (tcp.labels.lookup "cluster.x-k8s.io/cluster-name").getD ""

/-- The per-machine loop of `talosconfigForMachines` (direct mode,
lines 94–136): collect the machine's ExternalIP/InternalIP addresses into
the running list, fail if the running list is still empty, and on the
first iteration resolve the TalosConfig owned by the machine (first-match
scan, `break outer`). -/
def directLoop (env : Env) :
    List Machine → List String → Option TalosCfg →
    List Event × Except Err (List String × Option TalosCfg)
  | [], addrList, t => ([], Except.ok (addrList, t))
  | machine :: rest, addrList, t =>
    let addrList := collectAddrs addrList machine.statusAddresses
    if addrList.isEmpty then
      ([], Except.error (Err.noAddresses machine.name))
    else
      match t with
      | some tc => directLoop env rest addrList (some tc)
      | none =>
        match env.listTalosConfigs machine.ns with
        | Except.error e =>
            ([Event.listConfigs machine.ns], Except.error (Err.external e))
        | Except.ok cfgs =>
          match findFirstOwned cfgs machine.name with
          | none =>
              ([Event.listConfigs machine.ns],
               Except.error (Err.configNotFound machine.name))
          | some found =>
            match env.talosconfigFromString found.statusTalosConfig with
            | Except.error e =>
                ([Event.listConfigs machine.ns,
                  Event.parseTalosConfig found.statusTalosConfig],
                 Except.error (Err.external e))
            | Except.ok tc =>
              let next := directLoop env rest addrList (some tc)
              (Event.listConfigs machine.ns ::
                 Event.parseTalosConfig found.statusTalosConfig :: next.1,
               next.2)

/-- The per-machine loop of `talosconfigFromWorkloadCluster` (indirect
mode, lines 156–207): require a NodeRef, fetch the node, collect the
node's ExternalIP/InternalIP addresses, fail (naming the node) if the
running list is still empty, and on the first iteration resolve the
TalosConfig owned by the machine (last-match scan, inner `break` only). -/
def workloadLoop (env : Env) (clientset : Clientset) :
    List Machine → List String → Option TalosCfg →
    List Event × Except Err (List String × Option TalosCfg)
  | [], addrList, t => ([], Except.ok (addrList, t))
  | machine :: rest, addrList, t =>
    match machine.statusNodeRef with
    | none => ([], Except.error (Err.noNodeRef machine.name))
    | some nodeRef =>
      match env.getNode clientset nodeRef.name with
      | Except.error e =>
          ([Event.getNode nodeRef.name], Except.error (Err.external e))
      | Except.ok node =>
        let addrList := collectAddrs addrList node.statusAddresses
        if addrList.isEmpty then
          ([Event.getNode nodeRef.name],
           Except.error (Err.noAddresses node.name))
        else
          match t with
          | some tc =>
            let next := workloadLoop env clientset rest addrList (some tc)
            (Event.getNode nodeRef.name :: next.1, next.2)
          | none =>
            match env.listTalosConfigs machine.ns with
            | Except.error e =>
                ([Event.getNode nodeRef.name, Event.listConfigs machine.ns],
                 Except.error (Err.external e))
            | Except.ok cfgs =>
              match findLastOwned cfgs machine.name with
              | none =>
                  ([Event.getNode nodeRef.name, Event.listConfigs machine.ns],
                   Except.error (Err.configNotFound machine.name))
              | some found =>
                match env.talosconfigFromString found.statusTalosConfig with
                | Except.error e =>
                    ([Event.getNode nodeRef.name, Event.listConfigs machine.ns,
                      Event.parseTalosConfig found.statusTalosConfig],
                     Except.error (Err.external e))
                | Except.ok tc =>
                  let next := workloadLoop env clientset rest addrList (some tc)
                  (Event.getNode nodeRef.name :: Event.listConfigs machine.ns ::
                     Event.parseTalosConfig found.statusTalosConfig :: next.1,
                   next.2)

/-- `talosconfigFromWorkloadCluster` (lines 142–209): reject an empty
machine list, build the workload-cluster client via
`kubeconfigForCluster`, then run the indirect per-machine loop and hand
the endpoints and config to `talosclient.New`.  The source never invokes
`clientset.Close()`, on any path. -/
def talosconfigFromWorkloadCluster (env : Env) (cluster : ObjectKey)
    (machines : List Machine) : List Event × Except Err TalosClient :=
  if machines.isEmpty then
    ([], Except.error Err.atLeastOneMachine)
  else
    let built := kubeconfigForCluster env cluster
    match built.2 with
    | Except.error e => (built.1, Except.error e)
    | Except.ok clientset =>
      let looped := workloadLoop env clientset.clientset machines [] none
      match looped.2 with
      | Except.error e => (built.1 ++ looped.1, Except.error e)
      | Except.ok (addrList, t) =>
          (built.1 ++ looped.1,
           Except.ok { endpoints := addrList, config := t })

/-- `talosconfigForMachines` (lines 81–139): reject an empty machine list;
if the init config is structurally non-zero, resolve indirectly through
the workload cluster, otherwise run the direct per-machine loop and hand
the endpoints and config to `talosclient.New`. -/
def talosconfigForMachines (env : Env) (tcp : TalosControlPlane)
    (machines : List Machine) : List Event × Except Err TalosClient :=
  if machines.isEmpty then
    ([], Except.error Err.atLeastOneMachine)
  else if ¬ (tcp.spec.controlPlaneConfig.initConfig.isZero) then
    talosconfigFromWorkloadCluster env
      { ns := tcp.ns, name := clusterNameLabel tcp } machines
  else
    let looped := directLoop env machines [] none
    match looped.2 with
    | Except.error e => (looped.1, Except.error e)
    | Except.ok (addrList, t) =>
        (looped.1, Except.ok { endpoints := addrList, config := t })

/-! Concrete fixtures used by witnesses and counterexamples. -/

/-- A TalosConfig owned by machine `m1` (first owned record in fixtures). -/
def cfgA : TalosConfig :=
  { ownerReferences := [{ kind := "Machine", name := "m1" }],
    statusTalosConfig := "A" }

/-- A second TalosConfig owned by machine `m1`; its matching reference sits
behind a non-matching one, exercising the inner reference loop. -/
def cfgB : TalosConfig :=
  { ownerReferences := [{ kind := "Cluster", name := "demo" },
                        { kind := "Machine", name := "m1" }],
    statusTalosConfig := "B" }

/-- A TalosConfig owned by a machine whose name merely overlaps `m1`. -/
def cfgC : TalosConfig :=
  { ownerReferences := [{ kind := "Machine", name := "m10" }],
    statusTalosConfig := "C" }

/-- The `demo-kubeconfig` secret with a well-formed `value` entry. -/
def secretDemo : Secret :=
  { data := [("value", "apiVersion: v1")] }

/-- A secret that lacks the `value` key. -/
def secretNoValue : Secret :=
  { data := [("other", "zzz")] }

/-- The workload-cluster node backing machine `m1`. -/
def node1 : Node :=
  { name := "node-1",
    statusAddresses := [{ type := AddressType.internalIP, address := "10.0.0.1" }] }

/-- A workload-cluster node with no ExternalIP/InternalIP addresses. -/
def node3 : Node :=
  { name := "node-3",
    statusAddresses := [{ type := AddressType.hostname, address := "host-3" }] }

/-- A machine with one internal address, joined as `node-1`. -/
def m1 : Machine :=
  { name := "m1", ns := "ns1",
    statusAddresses := [{ type := AddressType.internalIP, address := "10.0.0.1" }],
    statusNodeRef := some { name := "node-1" } }

/-- A machine with an address but no NodeRef. -/
def m2NoRef : Machine :=
  { name := "m2", ns := "ns1",
    statusAddresses := [{ type := AddressType.internalIP, address := "10.0.0.2" }],
    statusNodeRef := none }

/-- A machine with no ExternalIP/InternalIP addresses, joined as `node-3`;
its machine name differs from its node name. -/
def m3 : Machine :=
  { name := "m3", ns := "ns1",
    statusAddresses := [{ type := AddressType.hostname, address := "host-m3" }],
    statusNodeRef := some { name := "node-3" } }

/-- An environment where every external call succeeds: the kubeconfig
secret exists, nodes `node-1` and `node-3` exist, and namespace `ns1`
holds the records `cfgC`, `cfgA`, `cfgB` in that order. -/
def envDemo : Env :=
  { getSecret := fun ns n =>
      if ns = "ns1" ∧ n = "demo-kubeconfig" then Except.ok secretDemo
      else Except.error "secret not found",
    restConfigFromKubeConfig := fun b =>
      if b = "" then Except.error "no configuration has been provided"
      else Except.ok { dial := none },
    newForConfig := fun _ => Except.ok { id := 1 },
    getNode := fun _ n =>
      if n = "node-1" then Except.ok node1
      else if n = "node-3" then Except.ok node3
      else Except.error "node not found",
    listTalosConfigs := fun ns =>
      if ns = "ns1" then Except.ok [cfgC, cfgA, cfgB] else Except.ok [],
    talosconfigFromString := fun s => Except.ok s }

/-- An environment whose secret store holds nothing. -/
def envNoSecret : Env :=
  { envDemo with getSecret := fun _ _ => Except.error "secret not found" }

/-- An environment whose kubeconfig secret lacks the `value` key. -/
def envNoValue : Env :=
  { envDemo with getSecret := fun _ _ => Except.ok secretNoValue }

/-- A control plane with a zero init config (direct mode). -/
def tcpZero : TalosControlPlane :=
  { ns := "ns1",
    labels := [("cluster.x-k8s.io/cluster-name", "demo")],
    spec := { controlPlaneConfig := { initConfig := {} } } }

/-- A control plane with a non-zero init config (indirect mode). -/
def tcpInit : TalosControlPlane :=
  { ns := "ns1",
    labels := [("cluster.x-k8s.io/cluster-name", "demo")],
    spec := { controlPlaneConfig := { initConfig := { generateType := "init" } } } }

/-! Helper lemmas about the embedded operations. -/

theorem collectAddrs_nil (acc : List String) : collectAddrs acc [] = acc := rfl

theorem collectAddrs_cons (acc : List String) (a : AddressRecord)
    (as : List AddressRecord) :
    collectAddrs acc (a :: as) =
      collectAddrs
        (if a.type = AddressType.externalIP ∨ a.type = AddressType.internalIP
         then acc ++ [a.address] else acc) as := rfl

theorem collectAddrs_append (addrs : List AddressRecord) (acc : List String) :
    collectAddrs acc addrs = acc ++ collectAddrs [] addrs := by
  induction addrs generalizing acc with
  | nil => simp [collectAddrs]
  | cons a as ih =>
    rw [collectAddrs_cons, collectAddrs_cons]
    by_cases h : a.type = AddressType.externalIP ∨ a.type = AddressType.internalIP
    · rw [if_pos h, if_pos h, ih (acc ++ [a.address]), ih ([] ++ [a.address])]
      simp
    · rw [if_neg h, if_neg h, ih acc]

theorem collectAddrs_ne_nil (addrs : List AddressRecord) (acc : List String)
    (h : acc ≠ []) : collectAddrs acc addrs ≠ [] := by
  rw [collectAddrs_append]
  exact List.append_ne_nil_of_left_ne_nil h _

theorem collectAddrs_isEmpty_false (addrs : List AddressRecord)
    (acc : List String) (h : acc ≠ []) :
    (collectAddrs acc addrs).isEmpty = false :=
  List.isEmpty_eq_false.mpr (collectAddrs_ne_nil addrs acc h)

theorem ownedByMachine_iff (n : String) (cfg : TalosConfig) :
    ownedByMachine n cfg = true ↔
      ∃ ref ∈ cfg.ownerReferences, ref.kind = "Machine" ∧ ref.name = n := by
  simp [ownedByMachine, refMatches, List.any_eq_true, Bool.and_eq_true]

theorem findLastOwned_aux (n : String) (cfgs : List TalosConfig) :
    ∀ acc : Option TalosConfig,
      cfgs.foldl
          (fun found cfg => if ownedByMachine n cfg then some cfg else found) acc =
        (cfgs.reverse.find? (ownedByMachine n)).or acc := by
  induction cfgs with
  | nil => intro acc; simp
  | cons c cs ih =>
    intro acc
    simp only [List.foldl_cons, List.reverse_cons, List.find?_append]
    rw [ih]
    cases h : cs.reverse.find? (ownedByMachine n) with
    | some x => simp
    | none =>
      by_cases hc : ownedByMachine n c = true
      · simp [List.find?_cons_of_pos _ hc, hc]
      · simp [List.find?_cons_of_neg _ hc, hc]

theorem findLastOwned_eq_reverse (cfgs : List TalosConfig) (n : String) :
    findLastOwned cfgs n = cfgs.reverse.find? (ownedByMachine n) := by
  unfold findLastOwned
  rw [findLastOwned_aux]
  cases cfgs.reverse.find? (ownedByMachine n) <;> rfl

theorem findFirstOwned_eq_none_iff (cfgs : List TalosConfig) (n : String) :
    findFirstOwned cfgs n = none ↔ ∀ cfg ∈ cfgs, ownedByMachine n cfg = false := by
  unfold findFirstOwned
  rw [List.find?_eq_none]
  constructor
  · intro h cfg hm
    exact Bool.not_eq_true _ ▸ (by simpa using h cfg hm)
  · intro h cfg hm
    simp [h cfg hm]

theorem findLastOwned_eq_none_iff (cfgs : List TalosConfig) (n : String) :
    findLastOwned cfgs n = none ↔ findFirstOwned cfgs n = none := by
  rw [findLastOwned_eq_reverse]
  unfold findFirstOwned
  rw [List.find?_eq_none, List.find?_eq_none]
  constructor
  · intro h x hx
    exact h x (List.mem_reverse.mpr hx)
  · intro h x hx
    exact h x (List.mem_reverse.mp hx)

theorem findFirstOwned_first (cfgs : List TalosConfig) (n : String)
    (pre : List TalosConfig) (cfg : TalosConfig) (post : List TalosConfig)
    (hs : cfgs = pre ++ cfg :: post) (hc : ownedByMachine n cfg = true)
    (hpre : ∀ c ∈ pre, ownedByMachine n c = false) :
    findFirstOwned cfgs n = some cfg := by
  subst hs
  unfold findFirstOwned
  rw [List.find?_append]
  have hnone : pre.find? (ownedByMachine n) = none :=
    List.find?_eq_none.mpr (fun x hx => by simp [hpre x hx])
  rw [hnone, List.find?_cons_of_pos _ hc]
  rfl

theorem directLoop_no_noAddresses (env : Env) (ms : List Machine) :
    ∀ (acc : List String) (t : Option TalosCfg), acc ≠ [] →
      ∀ n, (directLoop env ms acc t).2 ≠ Except.error (Err.noAddresses n) := by
  induction ms with
  | nil =>
    intro acc t h n
    simp [directLoop]
  | cons m rest ih =>
    intro acc t h n
    have hne : (collectAddrs acc m.statusAddresses).isEmpty = false :=
      collectAddrs_isEmpty_false _ _ h
    have hne' : collectAddrs acc m.statusAddresses ≠ [] :=
      List.isEmpty_eq_false.mp hne
    cases t with
    | some tc =>
      simp only [directLoop, hne, Bool.false_eq_true, if_false]
      exact ih _ _ hne' n
    | none =>
      simp only [directLoop, hne, Bool.false_eq_true, if_false]
      cases hl : env.listTalosConfigs m.ns with
      | error e => simp [hl]
      | ok cfgs =>
        cases hf : findFirstOwned cfgs m.name with
        | none => simp [hl, hf]
        | some found =>
          cases hp : env.talosconfigFromString found.statusTalosConfig with
          | error e => simp [hl, hf, hp]
          | ok tc => simpa [hl, hf, hp] using ih _ _ hne' n

theorem directLoop_some_ok (env : Env) (ms : List Machine) :
    ∀ (acc : List String) (tc : TalosCfg), acc ≠ [] →
      directLoop env ms acc (some tc) =
        ([], Except.ok (acc ++ (ms.map relevantAddrs).flatten, some tc)) := by
  induction ms with
  | nil =>
    intro acc tc h
    simp [directLoop]
  | cons m rest ih =>
    intro acc tc h
    have hne : (collectAddrs acc m.statusAddresses).isEmpty = false :=
      collectAddrs_isEmpty_false _ _ h
    have hne' : collectAddrs acc m.statusAddresses ≠ [] :=
      List.isEmpty_eq_false.mp hne
    simp only [directLoop, hne, Bool.false_eq_true, if_false]
    rw [ih _ tc hne', collectAddrs_append m.statusAddresses acc]
    simp [relevantAddrs, List.append_assoc]

theorem directLoop_head_empty (env : Env) (m : Machine) (rest : List Machine)
    (t : Option TalosCfg) (h : relevantAddrs m = []) :
    directLoop env (m :: rest) [] t =
      ([], Except.error (Err.noAddresses m.name)) := by
  have hE : (collectAddrs [] m.statusAddresses).isEmpty = true :=
    List.isEmpty_eq_true.mpr h
  cases t <;> simp [directLoop, hE]

theorem directLoop_head_notFound (env : Env) (m : Machine) (rest : List Machine)
    (cfgs : List TalosConfig) (ha : relevantAddrs m ≠ [])
    (hl : env.listTalosConfigs m.ns = Except.ok cfgs)
    (hf : findFirstOwned cfgs m.name = none) :
    directLoop env (m :: rest) [] none =
      ([Event.listConfigs m.ns], Except.error (Err.configNotFound m.name)) := by
  have hne : (collectAddrs [] m.statusAddresses).isEmpty = false :=
    List.isEmpty_eq_false.mpr ha
  simp [directLoop, hne, hl, hf]

theorem directLoop_first (env : Env) (m : Machine) (rest : List Machine)
    (cfgs : List TalosConfig) (found : TalosConfig) (tc : TalosCfg)
    (ha : relevantAddrs m ≠ [])
    (hl : env.listTalosConfigs m.ns = Except.ok cfgs)
    (hf : findFirstOwned cfgs m.name = some found)
    (hp : env.talosconfigFromString found.statusTalosConfig = Except.ok tc) :
    directLoop env (m :: rest) [] none =
      (Event.listConfigs m.ns ::
         Event.parseTalosConfig found.statusTalosConfig ::
         (directLoop env rest (relevantAddrs m) (some tc)).1,
       (directLoop env rest (relevantAddrs m) (some tc)).2) := by
  have hne : (collectAddrs [] m.statusAddresses).isEmpty = false :=
    List.isEmpty_eq_false.mpr ha
  simp [directLoop, hne, hl, hf, hp, relevantAddrs]

theorem directLoop_no_getSecret (env : Env) (ms : List Machine) :
    ∀ (acc : List String) (t : Option TalosCfg) (ns n : String),
      Event.getSecret ns n ∉ (directLoop env ms acc t).1 := by
  induction ms with
  | nil =>
    intro acc t ns n
    simp [directLoop]
  | cons m rest ih =>
    intro acc t ns n
    by_cases hE : (collectAddrs acc m.statusAddresses).isEmpty = true
    · cases t <;> simp [directLoop, hE]
    · have hne : (collectAddrs acc m.statusAddresses).isEmpty = false :=
        Bool.not_eq_true _ ▸ (by simpa using hE)
      cases t with
      | some tc =>
        simp only [directLoop, hne, Bool.false_eq_true, if_false]
        exact ih _ _ ns n
      | none =>
        simp only [directLoop, hne, Bool.false_eq_true, if_false]
        cases hl : env.listTalosConfigs m.ns with
        | error e => simp [hl]
        | ok cfgs =>
          cases hf : findFirstOwned cfgs m.name with
          | none => simp [hl, hf]
          | some found =>
            cases hp : env.talosconfigFromString found.statusTalosConfig with
            | error e => simp [hl, hf, hp]
            | ok tc => simpa [hl, hf, hp] using ih _ _ ns n

theorem directLoop_no_getNode (env : Env) (ms : List Machine) :
    ∀ (acc : List String) (t : Option TalosCfg) (nm : String),
      Event.getNode nm ∉ (directLoop env ms acc t).1 := by
  induction ms with
  | nil =>
    intro acc t nm
    simp [directLoop]
  | cons m rest ih =>
    intro acc t nm
    by_cases hE : (collectAddrs acc m.statusAddresses).isEmpty = true
    · cases t <;> simp [directLoop, hE]
    · have hne : (collectAddrs acc m.statusAddresses).isEmpty = false :=
        Bool.not_eq_true _ ▸ (by simpa using hE)
      cases t with
      | some tc =>
        simp only [directLoop, hne, Bool.false_eq_true, if_false]
        exact ih _ _ nm
      | none =>
        simp only [directLoop, hne, Bool.false_eq_true, if_false]
        cases hl : env.listTalosConfigs m.ns with
        | error e => simp [hl]
        | ok cfgs =>
          cases hf : findFirstOwned cfgs m.name with
          | none => simp [hl, hf]
          | some found =>
            cases hp : env.talosconfigFromString found.statusTalosConfig with
            | error e => simp [hl, hf, hp]
            | ok tc => simpa [hl, hf, hp] using ih _ _ nm

theorem kubeconfigForCluster_getSecret_error (env : Env) (cluster : ObjectKey)
    (e : String)
    (h : env.getSecret cluster.ns (cluster.name ++ "-kubeconfig") = Except.error e) :
    kubeconfigForCluster env cluster =
      ([Event.getSecret cluster.ns (cluster.name ++ "-kubeconfig")],
       Except.error (Err.external e)) := by
  simp [kubeconfigForCluster, h]

theorem kubeconfigForCluster_head (env : Env) (cluster : ObjectKey) :
    (kubeconfigForCluster env cluster).1.head? =
      some (Event.getSecret cluster.ns (cluster.name ++ "-kubeconfig")) := by
  unfold kubeconfigForCluster
  cases h1 : env.getSecret cluster.ns (cluster.name ++ "-kubeconfig") with
  | error e => simp [h1]
  | ok s =>
    cases h2 : env.restConfigFromKubeConfig ((s.data.lookup "value").getD "") with
    | error e => simp [h1, h2]
    | ok c =>
      cases h3 : env.newForConfig { c with dial := some newDialer } with
      | error e => simp [h1, h2, h3]
      | ok cs => simp [h1, h2, h3]

theorem kubeconfigForCluster_events (env : Env) (cluster : ObjectKey) :
    ∀ ev ∈ (kubeconfigForCluster env cluster).1,
      ev = Event.getSecret cluster.ns (cluster.name ++ "-kubeconfig") ∨
      (∃ b, ev = Event.parseKubeconfig b) ∨ (∃ d, ev = Event.newForConfig d) := by
  unfold kubeconfigForCluster
  cases h1 : env.getSecret cluster.ns (cluster.name ++ "-kubeconfig") with
  | error e =>
    simp only [h1, List.mem_cons, List.not_mem_nil, or_false]
    rintro ev rfl
    exact Or.inl rfl
  | ok s =>
    cases h2 : env.restConfigFromKubeConfig ((s.data.lookup "value").getD "") with
    | error e =>
      simp only [h1, h2, List.mem_cons, List.not_mem_nil, or_false]
      rintro ev (rfl | rfl)
      · exact Or.inl rfl
      · exact Or.inr (Or.inl ⟨_, rfl⟩)
    | ok c =>
      cases h3 : env.newForConfig { c with dial := some newDialer } with
      | error e =>
        simp only [h1, h2, h3, List.mem_cons, List.not_mem_nil, or_false]
        rintro ev (rfl | rfl | rfl)
        · exact Or.inl rfl
        · exact Or.inr (Or.inl ⟨_, rfl⟩)
        · exact Or.inr (Or.inr ⟨_, rfl⟩)
      | ok cs =>
        simp only [h1, h2, h3, List.mem_cons, List.not_mem_nil, or_false]
        rintro ev (rfl | rfl | rfl)
        · exact Or.inl rfl
        · exact Or.inr (Or.inl ⟨_, rfl⟩)
        · exact Or.inr (Or.inr ⟨_, rfl⟩)

theorem kubeconfigForCluster_no_close (env : Env) (cluster : ObjectKey) :
    Event.closeClient ∉ (kubeconfigForCluster env cluster).1 := by
  intro hmem
  rcases kubeconfigForCluster_events env cluster _ hmem with h | ⟨b, h⟩ | ⟨d, h⟩ <;>
    cases h

theorem kubeconfigForCluster_no_getNode (env : Env) (cluster : ObjectKey)
    (nm : String) : Event.getNode nm ∉ (kubeconfigForCluster env cluster).1 := by
  intro hmem
  rcases kubeconfigForCluster_events env cluster _ hmem with h | ⟨b, h⟩ | ⟨d, h⟩ <;>
    cases h

theorem kubeconfigForCluster_ok_dialer (env : Env) (cluster : ObjectKey)
    (k : kubernetesClient) (h : (kubeconfigForCluster env cluster).2 = Except.ok k) :
    k.dialer = newDialer := by
  unfold kubeconfigForCluster at h
  cases h1 : env.getSecret cluster.ns (cluster.name ++ "-kubeconfig") with
  | error e => simp [h1] at h
  | ok s =>
    cases h2 : env.restConfigFromKubeConfig ((s.data.lookup "value").getD "") with
    | error e => simp [h1, h2] at h
    | ok c =>
      cases h3 : env.newForConfig { c with dial := some newDialer } with
      | error e => simp [h1, h2, h3] at h
      | ok cs =>
        simp only [h1, h2, h3] at h
        cases h
        rfl

theorem kubeconfigForCluster_newForConfig_dial (env : Env) (cluster : ObjectKey)
    (d : Option Dialer)
    (h : Event.newForConfig d ∈ (kubeconfigForCluster env cluster).1) :
    d = some newDialer := by
  simp only [kubeconfigForCluster] at h
  cases h1 : env.getSecret cluster.ns (cluster.name ++ "-kubeconfig") with
  | error e =>
    rw [h1] at h
    simp at h
  | ok s =>
    simp only [h1] at h
    cases h2 : env.restConfigFromKubeConfig ((s.data.lookup "value").getD "") with
    | error e =>
      simp only [h2] at h
      simp at h
    | ok c =>
      simp only [h2] at h
      cases h3 : env.newForConfig { c with dial := some newDialer } with
      | error e =>
        simp only [h3] at h
        simp at h
        exact h
      | ok cs =>
        simp only [h3] at h
        simp at h
        exact h

theorem workloadLoop_head_noNodeRef (env : Env) (cs : Clientset) (m : Machine)
    (rest : List Machine) (acc : List String) (t : Option TalosCfg)
    (h : m.statusNodeRef = none) :
    workloadLoop env cs (m :: rest) acc t =
      ([], Except.error (Err.noNodeRef m.name)) := by
  simp [workloadLoop, h]

theorem workloadLoop_head_nodeEmpty (env : Env) (cs : Clientset) (m : Machine)
    (rest : List Machine) (nodeRef : NodeRef) (node : Node) (t : Option TalosCfg)
    (hr : m.statusNodeRef = some nodeRef)
    (hn : env.getNode cs nodeRef.name = Except.ok node)
    (he : relevantNodeAddrs node = []) :
    workloadLoop env cs (m :: rest) [] t =
      ([Event.getNode nodeRef.name], Except.error (Err.noAddresses node.name)) := by
  have hE : (collectAddrs [] node.statusAddresses).isEmpty = true :=
    List.isEmpty_eq_true.mpr he
  cases t <;> simp [workloadLoop, hr, hn, hE]

theorem workloadLoop_head_notFound (env : Env) (cs : Clientset) (m : Machine)
    (rest : List Machine) (nodeRef : NodeRef) (node : Node)
    (cfgs : List TalosConfig)
    (hr : m.statusNodeRef = some nodeRef)
    (hn : env.getNode cs nodeRef.name = Except.ok node)
    (ha : relevantNodeAddrs node ≠ [])
    (hl : env.listTalosConfigs m.ns = Except.ok cfgs)
    (hf : findLastOwned cfgs m.name = none) :
    workloadLoop env cs (m :: rest) [] none =
      ([Event.getNode nodeRef.name, Event.listConfigs m.ns],
       Except.error (Err.configNotFound m.name)) := by
  have hE : (collectAddrs [] node.statusAddresses).isEmpty = false :=
    List.isEmpty_eq_false.mpr ha
  simp [workloadLoop, hr, hn, hE, hl, hf]

theorem workloadLoop_no_close (env : Env) (cs : Clientset) (ms : List Machine) :
    ∀ (acc : List String) (t : Option TalosCfg),
      Event.closeClient ∉ (workloadLoop env cs ms acc t).1 := by
  induction ms with
  | nil =>
    intro acc t
    simp [workloadLoop]
  | cons m rest ih =>
    intro acc t
    cases hr : m.statusNodeRef with
    | none => simp [workloadLoop, hr]
    | some nodeRef =>
      cases hn : env.getNode cs nodeRef.name with
      | error e => simp [workloadLoop, hr, hn]
      | ok node =>
        by_cases hE : (collectAddrs acc node.statusAddresses).isEmpty = true
        · cases t <;> simp [workloadLoop, hr, hn, hE]
        · have hne : (collectAddrs acc node.statusAddresses).isEmpty = false :=
            Bool.not_eq_true _ ▸ (by simpa using hE)
          cases t with
          | some tc =>
            simpa [workloadLoop, hr, hn, hne] using ih _ _
          | none =>
            cases hl : env.listTalosConfigs m.ns with
            | error e => simp [workloadLoop, hr, hn, hne, hl]
            | ok cfgs =>
              cases hf : findLastOwned cfgs m.name with
              | none => simp [workloadLoop, hr, hn, hne, hl, hf]
              | some found =>
                cases hp : env.talosconfigFromString found.statusTalosConfig with
                | error e => simp [workloadLoop, hr, hn, hne, hl, hf, hp]
                | ok tc =>
                  simpa [workloadLoop, hr, hn, hne, hl, hf, hp] using ih _ _

theorem talosconfigForMachines_zero_fst (env : Env) (tcp : TalosControlPlane)
    (ms : List Machine) (h : ms ≠ [])
    (hz : tcp.spec.controlPlaneConfig.initConfig.isZero = true) :
    (talosconfigForMachines env tcp ms).1 = (directLoop env ms [] none).1 := by
  have hE : ms.isEmpty = false := List.isEmpty_eq_false.mpr h
  rcases hd : directLoop env ms [] none with ⟨evs, res⟩
  cases res with
  | error e => simp [talosconfigForMachines, hE, hz, hd]
  | ok p =>
    rcases p with ⟨a, t⟩
    simp [talosconfigForMachines, hE, hz, hd]

theorem talosconfigForMachines_zero_error (env : Env) (tcp : TalosControlPlane)
    (ms : List Machine) (e : Err) (h : ms ≠ [])
    (hz : tcp.spec.controlPlaneConfig.initConfig.isZero = true) :
    (talosconfigForMachines env tcp ms).2 = Except.error e ↔
      (directLoop env ms [] none).2 = Except.error e := by
  have hE : ms.isEmpty = false := List.isEmpty_eq_false.mpr h
  rcases hd : directLoop env ms [] none with ⟨evs, res⟩
  cases res with
  | error e2 => simp [talosconfigForMachines, hE, hz, hd]
  | ok p =>
    rcases p with ⟨a, t⟩
    simp [talosconfigForMachines, hE, hz, hd]

theorem talosconfigForMachines_zero_ok (env : Env) (tcp : TalosControlPlane)
    (ms : List Machine) (a : List String) (t : Option TalosCfg) (h : ms ≠ [])
    (hz : tcp.spec.controlPlaneConfig.initConfig.isZero = true)
    (hd : (directLoop env ms [] none).2 = Except.ok (a, t)) :
    (talosconfigForMachines env tcp ms).2 =
      Except.ok { endpoints := a, config := t } := by
  have hE : ms.isEmpty = false := List.isEmpty_eq_false.mpr h
  rcases hd2 : directLoop env ms [] none with ⟨evs, res⟩
  rw [hd2] at hd
  simp only at hd
  subst hd
  simp [talosconfigForMachines, hE, hz, hd2]

theorem talosconfigForMachines_nonzero (env : Env) (tcp : TalosControlPlane)
    (ms : List Machine) (h : ms ≠ [])
    (hz : tcp.spec.controlPlaneConfig.initConfig.isZero = false) :
    talosconfigForMachines env tcp ms =
      talosconfigFromWorkloadCluster env
        { ns := tcp.ns, name := clusterNameLabel tcp } ms := by
  have hE : ms.isEmpty = false := List.isEmpty_eq_false.mpr h
  simp [talosconfigForMachines, hE, hz]

theorem talosconfigFromWorkloadCluster_builtError (env : Env)
    (cluster : ObjectKey) (ms : List Machine) (e : Err) (h : ms ≠ [])
    (hb : (kubeconfigForCluster env cluster).2 = Except.error e) :
    talosconfigFromWorkloadCluster env cluster ms =
      ((kubeconfigForCluster env cluster).1, Except.error e) := by
  have hE : ms.isEmpty = false := List.isEmpty_eq_false.mpr h
  simp [talosconfigFromWorkloadCluster, hE, hb]

theorem talosconfigFromWorkloadCluster_fst (env : Env) (cluster : ObjectKey)
    (ms : List Machine) (k : kubernetesClient) (h : ms ≠ [])
    (hb : (kubeconfigForCluster env cluster).2 = Except.ok k) :
    (talosconfigFromWorkloadCluster env cluster ms).1 =
      (kubeconfigForCluster env cluster).1 ++
        (workloadLoop env k.clientset ms [] none).1 := by
  have hE : ms.isEmpty = false := List.isEmpty_eq_false.mpr h
  rcases hw : workloadLoop env k.clientset ms [] none with ⟨evs, res⟩
  cases res with
  | error e => simp [talosconfigFromWorkloadCluster, hE, hb, hw]
  | ok p =>
    rcases p with ⟨a, t⟩
    simp [talosconfigFromWorkloadCluster, hE, hb, hw]

theorem talosconfigFromWorkloadCluster_loopError (env : Env)
    (cluster : ObjectKey) (ms : List Machine) (k : kubernetesClient)
    (e : Err) (h : ms ≠ [])
    (hb : (kubeconfigForCluster env cluster).2 = Except.ok k) :
    (talosconfigFromWorkloadCluster env cluster ms).2 = Except.error e ↔
      (workloadLoop env k.clientset ms [] none).2 = Except.error e := by
  have hE : ms.isEmpty = false := List.isEmpty_eq_false.mpr h
  rcases hw : workloadLoop env k.clientset ms [] none with ⟨evs, res⟩
  cases res with
  | error e2 => simp [talosconfigFromWorkloadCluster, hE, hb, hw]
  | ok p =>
    rcases p with ⟨a, t⟩
    simp [talosconfigFromWorkloadCluster, hE, hb, hw]

theorem talosconfigFromWorkloadCluster_loopOk (env : Env) (cluster : ObjectKey)
    (ms : List Machine) (k : kubernetesClient) (a : List String)
    (t : Option TalosCfg) (h : ms ≠ [])
    (hb : (kubeconfigForCluster env cluster).2 = Except.ok k)
    (hw : (workloadLoop env k.clientset ms [] none).2 = Except.ok (a, t)) :
    (talosconfigFromWorkloadCluster env cluster ms).2 =
      Except.ok { endpoints := a, config := t } := by
  have hE : ms.isEmpty = false := List.isEmpty_eq_false.mpr h
  rcases hw2 : workloadLoop env k.clientset ms [] none with ⟨evs, res⟩
  rw [hw2] at hw
  simp only at hw
  subst hw
  simp [talosconfigFromWorkloadCluster, hE, hb, hw2]

theorem directLoop_head_nonempty_no_noAddresses (env : Env) (m0 : Machine)
    (rest : List Machine) (t : Option TalosCfg) (hne : relevantAddrs m0 ≠ []) :
    ∀ n, (directLoop env (m0 :: rest) [] t).2 ≠
      Except.error (Err.noAddresses n) := by
  intro n
  have hE : (collectAddrs [] m0.statusAddresses).isEmpty = false :=
    List.isEmpty_eq_false.mpr hne
  cases t with
  | some tc =>
    simp only [directLoop, hE, Bool.false_eq_true, if_false]
    exact directLoop_no_noAddresses env rest _ _ hne n
  | none =>
    simp only [directLoop, hE, Bool.false_eq_true, if_false]
    cases hl : env.listTalosConfigs m0.ns with
    | error e => simp [hl]
    | ok cfgs =>
      cases hf : findFirstOwned cfgs m0.name with
      | none => simp [hl, hf]
      | some found =>
        cases hp : env.talosconfigFromString found.statusTalosConfig with
        | error e => simp [hl, hf, hp]
        | ok tc => simpa [hl, hf, hp] using directLoop_no_noAddresses env rest _ _ hne n

/-! Claim theorems. -/

/-- C2: in direct mode the emptiness check is on the cumulative endpoint
set: a first machine with zero external/internal addresses makes the call
fail with `NoAddressesFound` naming that machine, regardless of later
machines; when the first machine contributes at least one address, no
`NoAddressesFound` failure can occur at all. -/
theorem claim_C2_cumulative_empty_check (env : Env) (tcp : TalosControlPlane)
    (m0 : Machine) (rest : List Machine)
    (hz : tcp.spec.controlPlaneConfig.initConfig.isZero = true) :
    (relevantAddrs m0 = [] →
      (talosconfigForMachines env tcp (m0 :: rest)).2 =
        Except.error (Err.noAddresses m0.name)) ∧
    (relevantAddrs m0 ≠ [] →
      ∀ n, (talosconfigForMachines env tcp (m0 :: rest)).2 ≠
        Except.error (Err.noAddresses n)) := by
  constructor
  · intro he
    rw [talosconfigForMachines_zero_error env tcp _ _ (by simp) hz,
        directLoop_head_empty env m0 rest none he]
  · intro hne n hcontra
    rw [talosconfigForMachines_zero_error env tcp _ _ (by simp) hz] at hcontra
    exact directLoop_head_nonempty_no_noAddresses env m0 rest none hne n hcontra

/-- C2 witness: `[m3, m1]` fails naming `m3` although `m1` has an address;
`[m1, m3]` never fails with `NoAddressesFound` although `m3` has none. -/
theorem claim_C2_witness :
    (talosconfigForMachines envDemo tcpZero [m3, m1]).2 =
      Except.error (Err.noAddresses "m3") ∧
    ∀ n, (talosconfigForMachines envDemo tcpZero [m1, m3]).2 ≠
      Except.error (Err.noAddresses n) := by
  constructor
  · exact (claim_C2_cumulative_empty_check envDemo tcpZero m3 [m1] rfl).1 (by decide)
  · intro n
    exact (claim_C2_cumulative_empty_check envDemo tcpZero m1 [m3] rfl).2 (by decide) n

/-- C5: in direct mode, when every machine reports at least one
external/internal address and the credential lookup for the first machine
succeeds, resolution succeeds and the endpoint list is exactly the
concatenation of each machine's external/internal addresses, in machine
order and, within a machine, record order. -/
theorem claim_C5_direct_endpoint_order (env : Env) (tcp : TalosControlPlane)
    (m0 : Machine) (rest : List Machine) (cfgs : List TalosConfig)
    (found : TalosConfig) (tc : TalosCfg)
    (hz : tcp.spec.controlPlaneConfig.initConfig.isZero = true)
    (hall : ∀ m ∈ m0 :: rest, relevantAddrs m ≠ [])
    (hl : env.listTalosConfigs m0.ns = Except.ok cfgs)
    (hf : findFirstOwned cfgs m0.name = some found)
    (hp : env.talosconfigFromString found.statusTalosConfig = Except.ok tc) :
    (talosconfigForMachines env tcp (m0 :: rest)).2 =
      Except.ok { endpoints := ((m0 :: rest).map relevantAddrs).flatten,
                  config := some tc } ∧
    ((m0 :: rest).map relevantAddrs).flatten ≠ [] := by
  have h0 : relevantAddrs m0 ≠ [] := hall m0 (by simp)
  have hd1 := directLoop_first env m0 rest cfgs found tc h0 hl hf hp
  have hd2 := directLoop_some_ok env rest (relevantAddrs m0) tc h0
  constructor
  · apply talosconfigForMachines_zero_ok env tcp _ _ _ (by simp) hz
    rw [hd1]
    simp only [hd2]
    simp [List.flatten_cons]
  · simp only [List.map_cons, List.flatten_cons]
    exact List.append_ne_nil_of_left_ne_nil h0 _

/-- C5 witness: two machines with one internal address each resolve to
both addresses in order, with the first machine's credential. -/
theorem claim_C5_witness :
    (talosconfigForMachines envDemo tcpZero [m1, m2NoRef]).2 =
      Except.ok { endpoints := ["10.0.0.1", "10.0.0.2"], config := some "A" } :=
  (claim_C5_direct_endpoint_order envDemo tcpZero m1 [m2NoRef]
    [cfgC, cfgA, cfgB] cfgA "A" rfl (by decide) rfl (by decide) rfl).1

/-- C6: the resolver takes the indirect (workload-cluster) path exactly
when the init config is structurally non-zero; when it is the zero value
the direct path runs and never touches the workload cluster (no secret
fetch, no node query appears in the trace). -/
theorem claim_C6_mode_selection (env : Env) (tcp : TalosControlPlane)
    (ms : List Machine) (h : ms ≠ []) :
    (tcp.spec.controlPlaneConfig.initConfig.isZero = false →
      talosconfigForMachines env tcp ms =
        talosconfigFromWorkloadCluster env
          { ns := tcp.ns, name := clusterNameLabel tcp } ms) ∧
    (tcp.spec.controlPlaneConfig.initConfig.isZero = true →
      (∀ ns n, Event.getSecret ns n ∉ (talosconfigForMachines env tcp ms).1) ∧
      (∀ nm, Event.getNode nm ∉ (talosconfigForMachines env tcp ms).1)) := by
  constructor
  · intro hz
    exact talosconfigForMachines_nonzero env tcp ms h hz
  · intro hz
    constructor
    · intro ns n
      rw [talosconfigForMachines_zero_fst env tcp ms h hz]
      exact directLoop_no_getSecret env ms [] none ns n
    · intro nm
      rw [talosconfigForMachines_zero_fst env tcp ms h hz]
      exact directLoop_no_getNode env ms [] none nm

/-- C6 witness: with a non-zero init config the call is the
workload-cluster resolution; with a zero init config no secret is ever
fetched. -/
theorem claim_C6_witness :
    talosconfigForMachines envDemo tcpInit [m1] =
      talosconfigFromWorkloadCluster envDemo { ns := "ns1", name := "demo" } [m1] ∧
    ∀ ns n, Event.getSecret ns n ∉ (talosconfigForMachines envDemo tcpZero [m1]).1 := by
  constructor
  · exact (claim_C6_mode_selection envDemo tcpInit [m1] (by decide)).1 rfl
  · exact ((claim_C6_mode_selection envDemo tcpZero [m1] (by decide)).2 rfl).1

/-- C7: workload-cluster access reads exactly the secret named
`<clusterName>-kubeconfig` in the cluster's namespace (it is always the
first operation), and when that get fails the error is returned unchanged
with no further operation performed (the trace is that single get). -/
theorem claim_C7_secret_name_and_early_failure (env : Env) (cluster : ObjectKey) :
    ((kubeconfigForCluster env cluster).1.head? =
      some (Event.getSecret cluster.ns (cluster.name ++ "-kubeconfig"))) ∧
    (∀ e, env.getSecret cluster.ns (cluster.name ++ "-kubeconfig") =
        Except.error e →
      kubeconfigForCluster env cluster =
        ([Event.getSecret cluster.ns (cluster.name ++ "-kubeconfig")],
         Except.error (Err.external e))) :=
  ⟨kubeconfigForCluster_head env cluster,
   fun e he => kubeconfigForCluster_getSecret_error env cluster e he⟩

/-- C7 witness: with an empty secret store, `demo`'s access fails with the
store's error after exactly one operation, the get of `demo-kubeconfig`. -/
theorem claim_C7_witness :
    kubeconfigForCluster envNoSecret { ns := "ns1", name := "demo" } =
      ([Event.getSecret "ns1" "demo-kubeconfig"],
       Except.error (Err.external "secret not found")) :=
  (claim_C7_secret_name_and_early_failure envNoSecret
    { ns := "ns1", name := "demo" }).2 "secret not found" rfl

/-- C8: every successfully constructed workload-cluster client carries the
fixed rotation dialer with 30-second dial timeout and keep-alive, and the
REST config handed to client construction carries that same dialer; there
is no caller-supplied override. -/
theorem claim_C8_fixed_dialer (env : Env) (cluster : ObjectKey) :
    newDialer.timeout = 30 ∧ newDialer.keepAlive = 30 ∧
    (∀ k, (kubeconfigForCluster env cluster).2 = Except.ok k →
      k.dialer = newDialer) ∧
    (∀ d, Event.newForConfig d ∈ (kubeconfigForCluster env cluster).1 →
      d = some newDialer) :=
  ⟨rfl, rfl,
   fun k hk => kubeconfigForCluster_ok_dialer env cluster k hk,
   fun d hd => kubeconfigForCluster_newForConfig_dial env cluster d hd⟩

/-- C8 witness: the concrete demo construction succeeds and its dialer is
the fixed 30/30 dialer. -/
theorem claim_C8_witness :
    (kubeconfigForCluster envDemo { ns := "ns1", name := "demo" }).2 =
      Except.ok { clientset := { id := 1 },
                  dialer := { timeout := 30, keepAlive := 30 } } ∧
    ({ clientset := { id := 1 },
       dialer := { timeout := 30, keepAlive := 30 } } : kubernetesClient).dialer
      = newDialer := by
  constructor
  · rfl
  · exact (claim_C8_fixed_dialer envDemo { ns := "ns1", name := "demo" }).2.2.1 _ rfl

/-- C9: the empty-endpoint failure names the machine in direct mode but
the workload-cluster node in indirect mode. -/
theorem claim_C9_error_identifier (env : Env) :
    (∀ (tcp : TalosControlPlane) (m : Machine) (rest : List Machine),
      tcp.spec.controlPlaneConfig.initConfig.isZero = true →
      relevantAddrs m = [] →
      (talosconfigForMachines env tcp (m :: rest)).2 =
        Except.error (Err.noAddresses m.name)) ∧
    (∀ (cluster : ObjectKey) (m : Machine) (rest : List Machine)
        (nodeRef : NodeRef) (node : Node) (k : kubernetesClient),
      (kubeconfigForCluster env cluster).2 = Except.ok k →
      m.statusNodeRef = some nodeRef →
      env.getNode k.clientset nodeRef.name = Except.ok node →
      relevantNodeAddrs node = [] →
      (talosconfigFromWorkloadCluster env cluster (m :: rest)).2 =
        Except.error (Err.noAddresses node.name)) := by
  constructor
  · intro tcp m rest hz he
    rw [talosconfigForMachines_zero_error env tcp _ _ (by simp) hz,
        directLoop_head_empty env m rest none he]
  · intro cluster m rest nodeRef node k hb hr hn he
    rw [talosconfigFromWorkloadCluster_loopError env cluster _ k _ (by simp) hb,
        workloadLoop_head_nodeEmpty env k.clientset m rest nodeRef node none hr hn he]

/-- C9 witness: machine `m3` (node `node-3`) with no relevant addresses is
reported as `m3` by the direct path and as `node-3` by the indirect path;
the two identifiers differ. -/
theorem claim_C9_witness :
    (talosconfigForMachines envDemo tcpZero [m3]).2 =
      Except.error (Err.noAddresses "m3") ∧
    (talosconfigFromWorkloadCluster envDemo { ns := "ns1", name := "demo" } [m3]).2 =
      Except.error (Err.noAddresses "node-3") ∧
    ("m3" : String) ≠ "node-3" := by
  refine ⟨(claim_C9_error_identifier envDemo).1 tcpZero m3 [] rfl rfl, ?_, by decide⟩
  exact (claim_C9_error_identifier envDemo).2 { ns := "ns1", name := "demo" } m3 []
    { name := "node-3" } node3 { clientset := { id := 1 }, dialer := newDialer }
    rfl rfl rfl rfl

/-- C10: the access bundle is read exclusively from the secret's `value`
data entry; a secret without that key is parsed as empty bytes, and a
parse failure (on the empty or on malformed bytes) is returned — not a
not-found error — after the get and the parse attempt. -/
theorem claim_C10_value_key_parse (env : Env) (cluster : ObjectKey)
    (s : Secret) (e : String)
    (hs : env.getSecret cluster.ns (cluster.name ++ "-kubeconfig") =
      Except.ok s) :
    (s.data.lookup "value" = none →
      env.restConfigFromKubeConfig "" = Except.error e →
      kubeconfigForCluster env cluster =
        ([Event.getSecret cluster.ns (cluster.name ++ "-kubeconfig"),
          Event.parseKubeconfig ""],
         Except.error (Err.external e))) ∧
    (∀ b, s.data.lookup "value" = some b →
      env.restConfigFromKubeConfig b = Except.error e →
      kubeconfigForCluster env cluster =
        ([Event.getSecret cluster.ns (cluster.name ++ "-kubeconfig"),
          Event.parseKubeconfig b],
         Except.error (Err.external e))) := by
  constructor
  · intro hk hp
    simp [kubeconfigForCluster, hs, hk, hp]
  · intro b hk hp
    simp [kubeconfigForCluster, hs, hk, hp]

/-- C10 witness: a present secret without the `value` key yields the parse
error for empty bytes, not a not-found error. -/
theorem claim_C10_witness :
    kubeconfigForCluster envNoValue { ns := "ns1", name := "demo" } =
      ([Event.getSecret "ns1" "demo-kubeconfig", Event.parseKubeconfig ""],
       Except.error (Err.external "no configuration has been provided")) :=
  (claim_C10_value_key_parse envNoValue { ns := "ns1", name := "demo" }
    secretNoValue "no configuration has been provided" rfl).1 rfl rfl

/-- C1 counterexample: with records `[cfgC, cfgA, cfgB]` in the namespace,
the first record owned by `m1` is `cfgA` (config string `"A"`), yet the
indirect-mode resolution consumes `"B"` — the last owned record — because
its scan's `break` leaves only the inner loop.  The claim that both paths
return the first match is therefore false. -/
theorem claim_C1_counterexample :
    findFirstOwned [cfgC, cfgA, cfgB] "m1" = some cfgA ∧
    cfgA.statusTalosConfig = "A" ∧
    (talosconfigFromWorkloadCluster envDemo
        { ns := "ns1", name := "demo" } [m1]).2 =
      Except.ok { endpoints := ["10.0.0.1"], config := some "B" } ∧
    ("B" : String) ≠ "A" := by
  refine ⟨rfl, rfl, rfl, by decide⟩

/-- C1 amended: the direct-path scan returns the first record owned by the
machine and stops there; the indirect-path scan keeps scanning and returns
the last owned record; both ignore references with non-matching kind or
name, fail over exactly the same record lists, and when no record is owned
by the machine both resolution loops fail with the not-found error. -/
theorem claim_C1_first_vs_last_scan :
    (∀ (cfgs : List TalosConfig) (n : String),
      findLastOwned cfgs n = cfgs.reverse.find? (ownedByMachine n) ∧
      (findFirstOwned cfgs n = none ↔
        ∀ cfg ∈ cfgs, ownedByMachine n cfg = false) ∧
      (findLastOwned cfgs n = none ↔ findFirstOwned cfgs n = none) ∧
      (∀ cfg, ownedByMachine n cfg = true ↔
        ∃ ref ∈ cfg.ownerReferences, ref.kind = "Machine" ∧ ref.name = n) ∧
      (∀ pre cfg post, cfgs = pre ++ cfg :: post →
        ownedByMachine n cfg = true →
        (∀ c ∈ pre, ownedByMachine n c = false) →
        findFirstOwned cfgs n = some cfg)) ∧
    (∀ (env : Env) (m : Machine) (rest : List Machine)
        (cfgs : List TalosConfig),
      relevantAddrs m ≠ [] →
      env.listTalosConfigs m.ns = Except.ok cfgs →
      findFirstOwned cfgs m.name = none →
      (directLoop env (m :: rest) [] none).2 =
        Except.error (Err.configNotFound m.name)) ∧
    (∀ (env : Env) (cs : Clientset) (m : Machine) (rest : List Machine)
        (nodeRef : NodeRef) (node : Node) (cfgs : List TalosConfig),
      m.statusNodeRef = some nodeRef →
      env.getNode cs nodeRef.name = Except.ok node →
      relevantNodeAddrs node ≠ [] →
      env.listTalosConfigs m.ns = Except.ok cfgs →
      findLastOwned cfgs m.name = none →
      (workloadLoop env cs (m :: rest) [] none).2 =
        Except.error (Err.configNotFound m.name)) := by
  refine ⟨fun cfgs n =>
    ⟨findLastOwned_eq_reverse cfgs n,
     findFirstOwned_eq_none_iff cfgs n,
     findLastOwned_eq_none_iff cfgs n,
     fun cfg => ownedByMachine_iff n cfg,
     fun pre cfg post hs hc hp => findFirstOwned_first cfgs n pre cfg post hs hc hp⟩,
    ?_, ?_⟩
  · intro env m rest cfgs ha hl hf
    rw [directLoop_head_notFound env m rest cfgs ha hl hf]
  · intro env cs m rest nodeRef node cfgs hr hn ha hl hf
    rw [workloadLoop_head_notFound env cs m rest nodeRef node cfgs hr hn ha hl hf]

/-- C1 witness: the last-owned scan on the fixture list picks `cfgB`, and a
machine owning no record makes the direct loop fail with not-found. -/
theorem claim_C1_witness :
    findLastOwned [cfgC, cfgA, cfgB] "m1" = some cfgB ∧
    (directLoop envDemo [m2NoRef] [] none).2 =
      Except.error (Err.configNotFound "m2") := by
  constructor
  · rw [(claim_C1_first_vs_last_scan.1 [cfgC, cfgA, cfgB] "m1").1]
    decide
  · exact claim_C1_first_vs_last_scan.2.1 envDemo m2NoRef [] [cfgC, cfgA, cfgB]
      (by decide) rfl (by decide)

/-- C3 counterexample: `[m1, m2NoRef]` contains a machine without a
NodeRef, and the call does fail with the machine-not-joined error for
`m2`, but only after network calls were attempted: the kubeconfig secret
fetch and the node query for `m1` both appear in the trace before the
failure.  The claim that the failure precedes any network call is
therefore false. -/
theorem claim_C3_counterexample :
    (talosconfigFromWorkloadCluster envDemo
        { ns := "ns1", name := "demo" } [m1, m2NoRef]).2 =
      Except.error (Err.noNodeRef "m2") ∧
    Event.getNode "node-1" ∈
      (talosconfigFromWorkloadCluster envDemo
        { ns := "ns1", name := "demo" } [m1, m2NoRef]).1 ∧
    Event.getSecret "ns1" "demo-kubeconfig" ∈
      (talosconfigFromWorkloadCluster envDemo
        { ns := "ns1", name := "demo" } [m1, m2NoRef]).1 := by
  refine ⟨rfl, by decide, by decide⟩

/-- C3 amended: when the first machine of the list lacks a NodeRef (and
the workload-cluster client was built successfully), the call fails with
the machine-not-joined error naming that machine before any node query:
no node query appears in the trace (the kubeconfig secret fetch, which
always precedes the per-machine checks, does). -/
theorem claim_C3_noNodeRef_before_node_query (env : Env) (cluster : ObjectKey)
    (m : Machine) (rest : List Machine) (k : kubernetesClient)
    (hb : (kubeconfigForCluster env cluster).2 = Except.ok k)
    (hr : m.statusNodeRef = none) :
    (talosconfigFromWorkloadCluster env cluster (m :: rest)).2 =
      Except.error (Err.noNodeRef m.name) ∧
    ∀ nm, Event.getNode nm ∉
      (talosconfigFromWorkloadCluster env cluster (m :: rest)).1 := by
  have hw := workloadLoop_head_noNodeRef env k.clientset m rest [] none hr
  constructor
  · rw [talosconfigFromWorkloadCluster_loopError env cluster _ k _ (by simp) hb, hw]
  · intro nm hmem
    rw [talosconfigFromWorkloadCluster_fst env cluster _ k (by simp) hb, hw] at hmem
    rcases List.mem_append.mp hmem with h1 | h2
    · exact kubeconfigForCluster_no_getNode env cluster nm h1
    · simp at h2

/-- C3 witness: the single NodeRef-less machine `m2` fails with the
machine-not-joined error and no node query appears in the trace. -/
theorem claim_C3_witness :
    (talosconfigFromWorkloadCluster envDemo
        { ns := "ns1", name := "demo" } [m2NoRef]).2 =
      Except.error (Err.noNodeRef "m2") ∧
    ∀ nm, Event.getNode nm ∉
      (talosconfigFromWorkloadCluster envDemo
        { ns := "ns1", name := "demo" } [m2NoRef]).1 :=
  claim_C3_noNodeRef_before_node_query envDemo { ns := "ns1", name := "demo" }
    m2NoRef [] { clientset := { id := 1 }, dialer := newDialer } rfl rfl

/-- C4: the indirect resolver never invokes the constructed client's
`Close` on any path — the close event occurs zero times in every trace —
even though the client (with its rotation dialer) is successfully
constructed, as the concrete successful run shows.  The spec's guaranteed
release is therefore not implemented: the dialer leaks. -/
theorem claim_C4_close_never_invoked :
    (∀ (env : Env) (cluster : ObjectKey) (ms : List Machine),
      (talosconfigFromWorkloadCluster env cluster ms).1.count
        Event.closeClient = 0) ∧
    (talosconfigFromWorkloadCluster envDemo
        { ns := "ns1", name := "demo" } [m1]).2 =
      Except.ok { endpoints := ["10.0.0.1"], config := some "B" } ∧
    Event.newForConfig (some newDialer) ∈
      (talosconfigFromWorkloadCluster envDemo
        { ns := "ns1", name := "demo" } [m1]).1 := by
  refine ⟨?_, rfl, by decide⟩
  intro env cluster ms
  rw [List.count_eq_zero]
  intro hmem
  by_cases h : ms = []
  · subst h
    simp [talosconfigFromWorkloadCluster] at hmem
  · cases hb : (kubeconfigForCluster env cluster).2 with
    | error e =>
      rw [talosconfigFromWorkloadCluster_builtError env cluster ms e h hb] at hmem
      exact kubeconfigForCluster_no_close env cluster hmem
    | ok k =>
      rw [talosconfigFromWorkloadCluster_fst env cluster ms k h hb] at hmem
      rcases List.mem_append.mp hmem with h1 | h2
      · exact kubeconfigForCluster_no_close env cluster h1
      · exact workloadLoop_no_close env k.clientset ms [] none h2

end ControlPlane
